import Mathlib

/-
Verification development for the Redmine activity-retrieval engine
(src/events/redmine.rs).  The Rust code is shallowly embedded: pure helper
functions become Lean functions, the HTTP / HTML-DOM / cache collaborators
become explicit environment records of result-returning functions, and the
side effects that the specification talks about (login attempts, cache
queries, cache writes) are recorded in an explicit trace that is threaded
through the stateful functions.  Machine integers do not overflow in any of
the modelled code paths (years, months, hours), so Int/Nat are used directly.
-/

set_option maxHeartbeats 1000000

namespace Redmine

/-- Calendar date. Model of chrono NaiveDate and of Date of the local
timezone: attaching the local timezone to a naive date
(Local.from_local_date(..).single()) is modelled as the identity, so both
types collapse to this one. -/
structure NaiveDate where
  year : Int
  month : Nat
  day : Nat
deriving DecidableEq, Repr

/-- Time of day with minute resolution. Model of chrono NaiveTime as used by
this code: the only formats parsed are %H:%M and %I:%M %p, which never set
seconds. -/
structure NaiveTime where
  hour : Nat
  minute : Nat
deriving DecidableEq, Repr

/-- Strict ordering of dates (model of the derived Ord on chrono dates,
which is lexicographic year, month, day). -/
def NaiveDate.lt (a b : NaiveDate) : Bool :=
  a.year < b.year ||
    (a.year == b.year && (a.month < b.month ||
      (a.month == b.month && a.day < b.day)))

def isLeap (y : Int) : Bool :=
  y % 4 == 0 && (y % 100 != 0 || y % 400 == 0)

def daysInMonth (y : Int) (m : Nat) : Nat :=
  if m == 2 then (if isLeap y then 29 else 28)
  else if m == 4 || m == 6 || m == 9 || m == 11 then 30
  else 31

/-- Validity of a calendar date, as enforced by chrono when a parse
completes. -/
def NaiveDate.isValid (d : NaiveDate) : Bool :=
  1 ≤ d.month && d.month ≤ 12 && 1 ≤ d.day && d.day ≤ daysInMonth d.year d.month

/-- The calendar successor of a date (used to model adding
chrono Duration.days(1) to a midnight timestamp). -/
def nextDay (d : NaiveDate) : NaiveDate :=
  if d.day < daysInMonth d.year d.month then ⟨d.year, d.month, d.day + 1⟩
  else if d.month < 12 then ⟨d.year, d.month + 1, 1⟩
  else ⟨d.year + 1, 1, 1⟩

/-- A local timestamp: a date together with hour, minute, second.  Model of
chrono DateTime of Local, naive (no DST shifts are modelled). -/
structure DateTimeL where
  date : NaiveDate
  hour : Nat
  minute : Nat
  second : Nat
deriving DecidableEq, Repr

/-- Adding one day to a timestamp keeps the time of day (model of adding
chrono Duration.days(1); exact for the midnight timestamps this code
builds). -/
def addOneDay (dt : DateTimeL) : DateTimeL :=
  { dt with date := nextDay dt.date }

/- ---------------------------------------------------------------------
   Model of the chrono strftime parser, for the directives this code and
   its locale table use: %Y %m %d %e %B (dates), %H %I %M %p (times),
   plus literal characters.
   --------------------------------------------------------------------- -/

def digitVal (c : Char) : Nat := c.toNat - 48

def digitsToNat (ds : List Char) : Nat :=
  ds.foldl (fun a c => a * 10 + digitVal c) 0

/-- Greedy scan of at most w leading digits (model of chrono numeric field
parsing; at least one digit is required by scanNum below). -/
def scanDigits : Nat → List Char → List Char × List Char
  | 0, cs => ([], cs)
  | _ + 1, [] => ([], [])
  | w + 1, c :: cs =>
    if c.isDigit then
      let p := scanDigits w cs
      (c :: p.1, p.2)
    else ([], c :: cs)

/-- Model of chrono numeric field parsing: leading whitespace is trimmed
(chrono calls trim_left before every numeric item), then at most w digits
are scanned greedily, at least one being required. -/
def scanNum (w : Nat) (cs : List Char) : Option (Nat × List Char) :=
  let p := scanDigits w (cs.dropWhile Char.isWhitespace)
  if p.1.isEmpty then none else some (digitsToNat p.1, p.2)

def asciiLower (c : Char) : Char :=
  if 65 ≤ c.toNat && c.toNat ≤ 90 then Char.ofNat (c.toNat + 32) else c

def monthNames : List (String × Nat) :=
  [("january", 1), ("february", 2), ("march", 3), ("april", 4),
   ("may", 5), ("june", 6), ("july", 7), ("august", 8),
   ("september", 9), ("october", 10), ("november", 11), ("december", 12)]

/-- Case-insensitive match of a full English month name at the head of the
input (model of the %B directive; abbreviated names are not modelled, no
locale in the table below combines %B with a claim under test). -/
def matchMonthName (cs : List Char) : Option (Nat × List Char) :=
  monthNames.foldl
    (fun acc p =>
      match acc with
      | some r => some r
      | none =>
        let nm := p.1.data
        if (cs.take nm.length).map asciiLower == nm then
          some (p.2, cs.drop nm.length)
        else none)
    none

/-- Accumulator of parsed date/time fields (model of chrono Parsed). -/
structure DtAcc where
  yearF : Option Nat := none
  monthF : Option Nat := none
  dayF : Option Nat := none
  hour24F : Option Nat := none
  hour12F : Option Nat := none
  pmF : Option Bool := none
  minuteF : Option Nat := none
deriving DecidableEq, Repr

/-- Interpreter for a strftime format over an input character list; the
whole input must be consumed (chrono rejects trailing garbage).  A percent
starts a directive, a whitespace format character consumes any run of
input whitespace including none (chrono Item Space), any other format
character is a literal that must match the next input character exactly.
The first argument is recursion fuel,
always called with the format length plus one, which strictly dominates
the number of steps (each step drops at least one format character). -/
def runFmt : Nat → List Char → List Char → DtAcc → Option DtAcc
  | 0, _, _, _ => none
  | _ + 1, [], cs, acc =>
    match cs with
    | [] => some acc
    | _ :: _ => none
  | fuel + 1, c :: f, cs, acc =>
    if c == '%' then
      match f with
      | [] => none
      | d :: f2 =>
        if d == 'Y' then
          match scanNum 4 cs with
          | some (n, r) => runFmt fuel f2 r { acc with yearF := some n }
          | none => none
        else if d == 'm' then
          match scanNum 2 cs with
          | some (n, r) => runFmt fuel f2 r { acc with monthF := some n }
          | none => none
        else if d == 'd' then
          match scanNum 2 cs with
          | some (n, r) => runFmt fuel f2 r { acc with dayF := some n }
          | none => none
        else if d == 'e' then
          match scanNum 2 cs with
          | some (n, r) => runFmt fuel f2 r { acc with dayF := some n }
          | none => none
        else if d == 'B' then
          match matchMonthName cs with
          | some (n, r) => runFmt fuel f2 r { acc with monthF := some n }
          | none => none
        else if d == 'H' then
          match scanNum 2 cs with
          | some (n, r) => runFmt fuel f2 r { acc with hour24F := some n }
          | none => none
        else if d == 'I' then
          match scanNum 2 cs with
          | some (n, r) => runFmt fuel f2 r { acc with hour12F := some n }
          | none => none
        else if d == 'M' then
          match scanNum 2 cs with
          | some (n, r) => runFmt fuel f2 r { acc with minuteF := some n }
          | none => none
        else if d == 'p' then
          match cs with
          | c1 :: c2 :: r =>
            if (c1 == 'A' || c1 == 'a') && (c2 == 'M' || c2 == 'm') then
              runFmt fuel f2 r { acc with pmF := some false }
            else if (c1 == 'P' || c1 == 'p') && (c2 == 'M' || c2 == 'm') then
              runFmt fuel f2 r { acc with pmF := some true }
            else none
          | _ => none
        else none
    else if c.isWhitespace then
      runFmt fuel f (cs.dropWhile Char.isWhitespace) acc
    else
      match cs with
      | [] => none
      | i :: cs2 => if c == i then runFmt fuel f cs2 acc else none

/-- Model of chrono NaiveDate.parse_from_str: run the format, then require
year, month and day fields and a valid calendar date. -/
def NaiveDate.parse_from_str (s fmt : String) : Option NaiveDate :=
  match runFmt (fmt.data.length + 1) fmt.data s.data {} with
  | some acc =>
    match acc.yearF, acc.monthF, acc.dayF with
    | some y, some m, some d =>
      let date : NaiveDate := ⟨(y : Int), m, d⟩
      if date.isValid then some date else none
    | _, _, _ => none
  | none => none

/-- Model of chrono NaiveTime.parse_from_str: a %H hour with a minute, or a
%I hour with meridiem flag and minute (12 AM is 00, 12 PM is 12). -/
def NaiveTime.parse_from_str (s fmt : String) : Option NaiveTime :=
  match runFmt (fmt.data.length + 1) fmt.data s.data {} with
  | some acc =>
    match acc.hour24F, acc.minuteF with
    | some h, some mi =>
      if h ≤ 23 && mi ≤ 59 then some ⟨h, mi⟩ else none
    | _, _ =>
      match acc.hour12F, acc.pmF, acc.minuteF with
      | some h, some pm, some mi =>
        if 1 ≤ h && h ≤ 12 && mi ≤ 59 then
          some ⟨(if pm then h % 12 + 12 else h % 12), mi⟩
        else none
      | _, _, _ => none
  | none => none

/- ---------------------------------------------------------------------
   Locale table and the date/time parser (redmine.rs lines 28-134).
   --------------------------------------------------------------------- -/

structure LocaleInfo where
  date_format : String
  today_translation : String
deriving DecidableEq, Repr

def LocaleInfo.new (date_format today_translation : String) : LocaleInfo :=
  ⟨date_format, today_translation⟩

/-- Model of Rust str.to_lowercase for the characters one finds in this
code: ASCII, Latin-1, Latin Extended-A, Greek (accented capitals
included) and Cyrillic (the extended pair blocks included) uppercase
letters are lowered; every other character is kept. -/
def rustCharToLower (c : Char) : Char :=
  let n := c.toNat
  if 65 ≤ n && n ≤ 90 then Char.ofNat (n + 32)
  else if 192 ≤ n && n ≤ 222 && n != 215 then Char.ofNat (n + 32)
  else if 256 ≤ n && n ≤ 311 && n % 2 == 0 then Char.ofNat (n + 1)
  else if 313 ≤ n && n ≤ 328 && n % 2 == 1 then Char.ofNat (n + 1)
  else if 330 ≤ n && n ≤ 375 && n % 2 == 0 then Char.ofNat (n + 1)
  else if (n == 377 || n == 379 || n == 381) then Char.ofNat (n + 1)
  else if n == 902 then Char.ofNat 940
  else if 904 ≤ n && n ≤ 906 then Char.ofNat (n + 37)
  else if n == 908 then Char.ofNat 972
  else if 910 ≤ n && n ≤ 911 then Char.ofNat (n + 63)
  else if 913 ≤ n && n ≤ 937 && n != 930 then Char.ofNat (n + 32)
  else if 1040 ≤ n && n ≤ 1071 then Char.ofNat (n + 32)
  else if 1024 ≤ n && n ≤ 1039 then Char.ofNat (n + 80)
  else if 1120 ≤ n && n ≤ 1153 && n % 2 == 0 then Char.ofNat (n + 1)
  else if 1162 ≤ n && n ≤ 1215 && n % 2 == 0 then Char.ofNat (n + 1)
  else if 1217 ≤ n && n ≤ 1229 && n % 2 == 1 then Char.ofNat (n + 1)
  else if 1232 ≤ n && n ≤ 1327 && n % 2 == 0 then Char.ofNat (n + 1)
  else c

def rustToLowercase (s : String) : String :=
  ⟨s.data.map rustCharToLower⟩

/-- The fixed regular expression of parse_date, a full-string match of
digit digit digit digit dash digit digit dash digit digit. -/
def isoRegexMatch (s : String) : Bool :=
  match s.data with
  | [y1, y2, y3, y4, s1, m1, m2, s2, d1, d2] =>
    y1.isDigit && y2.isDigit && y3.isDigit && y4.isDigit &&
      s1 == '-' && m1.isDigit && m2.isDigit && s2 == '-' &&
      d1.isDigit && d2.isDigit
  | _ => false

/-- Outcome of a fallible call.  ok/err model Rust Result, crashed models a
panic (unwrap on None, or the fuel artifact of the pagination model). -/
inductive Res (α : Type) where
  | ok : α → Res α
  | err : String → Res α
  | crashed : String → Res α
deriving DecidableEq, Repr

/-- parse_date (redmine.rs lines 44-68).  The call Local.today() inside the
source is made explicit as the today argument; the local-timezone
attachment of the parsed naive date is modelled as the identity. -/
def parse_date (locale_info : LocaleInfo) (today : NaiveDate)
    (date_str : String) : Res NaiveDate :=
  if rustToLowercase date_str == locale_info.today_translation then
    .ok today
  else
    let naiveOpt :=
      if isoRegexMatch date_str then
        NaiveDate.parse_from_str date_str ("%Y-%m-%d")
      else
        NaiveDate.parse_from_str date_str locale_info.date_format
    match naiveOpt with
    | some naive => .ok naive
    | none => .err ("date parse error")

/-- Model of Rust str contains on a single character. -/
def strContainsChar (s : String) (c : Char) : Bool :=
  s.data.contains c

/-- parse_time (redmine.rs lines 70-77). -/
def parse_time (time_str : String) : Res NaiveTime :=
  if strContainsChar time_str ' ' then
    match NaiveTime.parse_from_str time_str ("%I:%M %p") with
    | some t => .ok t
    | none => .err ("time parse error")
  else
    match NaiveTime.parse_from_str time_str ("%H:%M") with
    | some t => .ok t
    | none => .err ("time parse error")

/-- redmine_locales (redmine.rs lines 79-134); the HashMap is modelled as
the association list it is collected from (all 49 keys are distinct). -/
def redmine_locales : List (String × LocaleInfo) :=
  [("lv", LocaleInfo.new ("%d.%m.%Y") ("šodien")),
   ("th", LocaleInfo.new ("%Y-%m-%d") ("วันนี้")),
   ("zh", LocaleInfo.new ("%Y-%m-%d") ("今天")),
   ("da", LocaleInfo.new ("%d.%m.%Y") ("i dag")),
   ("pt", LocaleInfo.new ("%d/%m/%Y") ("hoje")),
   ("ja", LocaleInfo.new ("%Y/%m/%d") ("今日")),
   ("pl", LocaleInfo.new ("%Y-%m-%d") ("dzisiaj")),
   ("lt", LocaleInfo.new ("%m/%d/%Y") ("šiandien")),
   ("fa", LocaleInfo.new ("%Y/%m/%d") ("امروز")),
   ("gl", LocaleInfo.new ("%e/%m/%Y") ("hoxe")),
   ("uk", LocaleInfo.new ("%Y-%m-%d") ("сьогодні")),
   ("vi", LocaleInfo.new ("%d-%m-%Y") ("hôm nay")),
   ("mn", LocaleInfo.new ("%Y/%m/%d") ("өнөөдөр")),
   ("cs", LocaleInfo.new ("%Y-%m-%d") ("dnes")),
   ("en-GB", LocaleInfo.new ("%d/%m/%Y") ("today")),
   ("fr", LocaleInfo.new ("%d/%m/%Y") ("aujourd\x27hui")),
   ("sr", LocaleInfo.new ("%d.%m.%Y.") ("данас")),
   ("fi", LocaleInfo.new ("%e. %Bta %Y") ("tänään")),
   ("no", LocaleInfo.new ("%d.%m.%Y") ("idag")),
   ("mk", LocaleInfo.new ("%d/%m/%Y") ("денес")),
   ("hu", LocaleInfo.new ("%Y.%m.%d.") ("ma")),
   ("ro", LocaleInfo.new ("%d-%m-%Y") ("astăzi")),
   ("it", LocaleInfo.new ("%d-%m-%Y") ("oggi")),
   ("he", LocaleInfo.new ("%d/%m/%Y") ("היום")),
   ("es", LocaleInfo.new ("%Y-%m-%d") ("hoy")),
   ("en", LocaleInfo.new ("%m/%d/%Y") ("today")),
   ("sq", LocaleInfo.new ("%m/%d/%Y") ("sot")),
   ("eu", LocaleInfo.new ("%Y/%m/%d") ("gaur")),
   ("id", LocaleInfo.new ("%d-%m-%Y") ("hari ini")),
   ("de", LocaleInfo.new ("%d.%m.%Y") ("heute")),
   ("bg", LocaleInfo.new ("%d-%m-%Y") ("днес")),
   ("sv", LocaleInfo.new ("%Y-%m-%d") ("idag")),
   ("sk", LocaleInfo.new ("%Y-%m-%d") ("dnes")),
   ("ko", LocaleInfo.new ("%Y/%m/%d") ("오늘")),
   ("et", LocaleInfo.new ("%d.%m.%Y") ("täna")),
   ("hr", LocaleInfo.new ("%m/%d/%Y") ("danas")),
   ("el", LocaleInfo.new ("%m/%d/%Y") ("σήμερα")),
   ("zh-TW", LocaleInfo.new ("%Y-%m-%d") ("今天")),
   ("sr-YU", LocaleInfo.new ("%d.%m.%Y.") ("danas")),
   ("bs", LocaleInfo.new ("%d.%m.%Y") ("danas")),
   ("tr", LocaleInfo.new ("%d.%m.%Y") ("bugün")),
   ("ru", LocaleInfo.new ("%d.%m.%Y") ("сегодня")),
   ("es-PA", LocaleInfo.new ("%Y-%m-%d") ("hoy")),
   ("ar", LocaleInfo.new ("%m/%d/%Y") ("اليوم")),
   ("sl", LocaleInfo.new ("%d.%m.%Y") ("danes")),
   ("az", LocaleInfo.new ("%d.%m.%Y") ("bu gün")),
   ("ca", LocaleInfo.new ("%d-%m-%Y") ("avui")),
   ("pt-BR", LocaleInfo.new ("%d/%m/%Y") ("hoje")),
   ("nl", LocaleInfo.new ("%d-%m-%Y") ("vandaag"))]

/- ---------------------------------------------------------------------
   The data model of events and of the scraped documents.
   --------------------------------------------------------------------- -/

structure RedmineConfig where
  server_url : String
  username : String
  password : String
deriving DecidableEq, Repr

/-- Modelled from the spec: word-wrap hint of an event body (the defining
module events.rs is not under src/; spec section 3 lists the two hints). -/
inductive WordWrapMode where
  | WordWrap : WordWrapMode
  | NoWordWrap : WordWrapMode
deriving DecidableEq, Repr

/-- Modelled from the spec: rich text body of an event, tagged as plain
text or markup, with a word-wrap hint (events.rs is not under src/; spec
section 3). -/
inductive EventBody where
  | Markup : String → WordWrapMode → EventBody
  | PlainText : String → WordWrapMode → EventBody
deriving DecidableEq, Repr

/-- Modelled from the spec: the Event output unit (events.rs is not under
src/; fields follow spec section 3 and the construction site in
redmine.rs). The opaque icon bytes are modelled as a string token. -/
structure Event where
  source_name : String
  icon : String
  time : NaiveTime
  title : String
  short_title : String
  body : EventBody
  extra_details : Option String
deriving DecidableEq, Repr

/-- Modelled from the spec: Event constructor, storing its arguments in
field order as at the construction site in parse_events. -/
def Event.new (source_name icon : String) (time : NaiveTime)
    (title short_title : String) (body : EventBody)
    (extra_details : Option String) : Event :=
  ⟨source_name, icon, time, title, short_title, body, extra_details⟩

/-- Opaque icon constant (crate icons module, not under src/). -/
def FONTAWESOME_TASKS_SVG : String := "fontawesome-tasks-svg"

/-- Model of glib markup_escape_text on one character. -/
def escapeChar (c : Char) : String :=
  if c == '&' then ("&amp;")
  else if c == '<' then ("&lt;")
  else if c == '>' then ("&gt;")
  else if c == Char.ofNat 39 then ("&#39;")
  else if c == Char.ofNat 34 then ("&quot;")
  else String.singleton c

/-- Model of glib markup_escape_text (library building block). -/
def markup_escape_text (s : String) : String :=
  String.join (s.data.map escapeChar)

/-- An anchor element: its inner HTML and its optional href attribute. -/
structure LinkElt where
  inner : String
  href : Option String
deriving DecidableEq, Repr

/-- One day's event block as seen through the three selectors of
parse_events: the span.time, span.description and dt.icon a element
streams, in document order. -/
structure DayBlock where
  times : List String
  descriptions : List String
  links : List LinkElt
deriving DecidableEq, Repr

/-- An activity page as seen through the selectors of parse_html: the root
lang attribute, the day headers (h3 inner HTML) and their adjacent dl
blocks in document order, and the optional li.previous.page a href. -/
structure ActivityDoc where
  lang : Option String
  dayHeaders : List String
  dayContents : List DayBlock
  previousHref : Option String
deriving DecidableEq, Repr

/-- ActivityData (redmine.rs lines 23-26). ReachedEndOfPage carries the
link to the previous page, or none if there is no previous page. -/
inductive ActivityData where
  | Done : List Event → ActivityData
  | ReachedEndOfPage : Option String → ActivityData
deriving DecidableEq, Repr

/- ---------------------------------------------------------------------
   parse_events (redmine.rs lines 136-179).
   --------------------------------------------------------------------- -/

/-- The Event built for one feed item (the Event.new call of parse_events,
redmine.rs lines 159-175): title and short title are the link's inner
HTML, the body is markup with a deep link of server_url plus the link's
href (empty when the href attribute is missing, per unwrap_or) followed by
the escaped description. -/
def mkRedmineEvent (redmine_config : RedmineConfig) (time : NaiveTime)
    (link_elt : LinkElt) (description : String) : Event :=
  Event.new ("Redmine") FONTAWESOME_TASKS_SVG time link_elt.inner link_elt.inner
    (EventBody.Markup
      (("<a href=\"") ++ redmine_config.server_url ++
        (match link_elt.href with
         | some h => h
         | none => "") ++
        ("\">Open in the browser</a>\n") ++ markup_escape_text description)
      WordWrapMode.WordWrap)
    none

/-- The loop of parse_events over the three element streams: iterate while
the time stream has elements; each step requires a description and a link
element and a parsable time. -/
def parse_events_from (redmine_config : RedmineConfig) :
    List String → List String → List LinkElt → Res (List Event)
  | [], _, _ => .ok []
  | time_str :: ts, descs, links =>
    match parse_time time_str with
    | .err e => .err e
    | .crashed m => .crashed m
    | .ok time =>
      match descs with
      | [] => .err ("Redmine event: no description?")
      | description :: ds =>
        match links with
        | [] => .err ("Redmine event: no link?")
        | link_elt :: ls =>
          match parse_events_from redmine_config ts ds ls with
          | .err e => .err e
          | .crashed m => .crashed m
          | .ok rest => .ok (mkRedmineEvent redmine_config time link_elt description :: rest)

/-- parse_events (redmine.rs lines 136-179) on one day's block. -/
def parse_events (redmine_config : RedmineConfig) (contents_elt : DayBlock) :
    Res (List Event) :=
  parse_events_from redmine_config contents_elt.times contents_elt.descriptions
    contents_elt.links

/- ---------------------------------------------------------------------
   parse_html (redmine.rs lines 244-294).
   --------------------------------------------------------------------- -/

/-- The day-header loop of parse_html (redmine.rs lines 265-284): walk the
header and content streams in lockstep; a date before the target ends with
Done of the empty list, an equal date ends with Done of that day's parsed
events, a later date continues; when either stream is exhausted the scan
falls through (result none). -/
def scan_days (redmine_config : RedmineConfig) (locale : LocaleInfo)
    (today day : NaiveDate) :
    List String → List DayBlock → Res (Option ActivityData)
  | day_elt :: ds, contents_elt :: cs =>
    match parse_date locale today day_elt with
    | .err e => .err e
    | .crashed m => .crashed m
    | .ok cur_date =>
      if NaiveDate.lt cur_date day then .ok (some (ActivityData.Done []))
      else if cur_date == day then
        match parse_events redmine_config contents_elt with
        | .ok events => .ok (some (ActivityData.Done events))
        | .err e => .err e
        | .crashed m => .crashed m
      else scan_days redmine_config locale today day ds cs
  | _, _ => .ok none

/-- parse_html (redmine.rs lines 244-294).  The scraper HTML parsing of the
page string is abstracted as the parseDocument function argument; the call
Local.today() reached through parse_date is the today argument. -/
def parse_html (parseDocument : String → ActivityDoc)
    (redmine_config : RedmineConfig)
    (redmine_locales : List (String × LocaleInfo)) (today day : NaiveDate)
    (activity_html : String) : Res ActivityData :=
  let doc := parseDocument activity_html
  match doc.lang with
  | none => .err ("Can\x27t find the language in the HTML")
  | some locale_str =>
    match List.lookup locale_str redmine_locales with
    | none => .err (("Unknown locale ") ++ locale_str)
    | some locale =>
      match scan_days redmine_config locale today day doc.dayHeaders doc.dayContents with
      | .ok (some ad) => .ok ad
      | .ok none =>
        .ok (ActivityData.ReachedEndOfPage
          (doc.previousHref.map (fun s => redmine_config.server_url ++ s)))
      | .err e => .err e
      | .crashed m => .crashed m

/- ---------------------------------------------------------------------
   The stateful part: login, page fetching, pagination, caching
   (redmine.rs lines 181-242, 296-324, 399-417).
   --------------------------------------------------------------------- -/

/-- Model of Rust str replace: substitute every occurrence of a non-empty
pattern; the fuel argument is the input length, enough because every step
consumes at least one character. -/
def replaceAux (pat rep : List Char) : Nat → List Char → List Char
  | 0, cs => cs
  | _ + 1, [] => []
  | fuel + 1, c :: cs =>
    if pat.isPrefixOf (c :: cs) then
      rep ++ replaceAux pat rep fuel (List.drop (pat.length - 1) cs)
    else c :: replaceAux pat rep fuel cs

/-- Model of Rust str replace (library building block). -/
def rustReplace (s pat rep : String) : String :=
  if pat.data.isEmpty then s
  else ⟨replaceAux pat.data rep.data s.data.length s.data⟩

/-- Trace of the observable side effects of one get_events call: how many
times init_client ran (each run is one login flow), which cache boundaries
were queried, and which pages were written back to the cache. -/
structure Trace where
  loginCount : Nat
  cacheQueries : List DateTimeL
  cacheWrites : List (String × String)
deriving DecidableEq, Repr

/-- A login page as seen through the selectors of init_client: the
input with name authenticity_token (outer Option) and its value attribute
(inner Option), and the a.user.active element (outer Option) with its
href attribute (inner Option). -/
structure LoginDoc where
  authTokenValue : Option (Option String)
  userActiveHref : Option (Option String)
deriving Repr

/-- Environment of collaborator functions: the HTTP transport, the HTML
parser and the cache store, all abstracted exactly at the library-call
boundary of redmine.rs.  today stands for the Local.today() calls. -/
structure Env (Client : Type) where
  today : NaiveDate
  newClient : Res Client
  rootHtml : Res String
  parseLoginDoc : String → LoginDoc
  postLogin : String → Res String
  httpGet : Client → String → Res String
  getCached : String → DateTimeL → Res (Option String)
  writeCacheRes : String → String → Res Unit
  parseDocument : String → ActivityDoc

/-- init_client (redmine.rs lines 181-224): build a client, GET the server
root, take the anti-forgery token with two unwrap calls (a missing input
or a missing value attribute is a panic, modelled as crashed), POST the
login form, then extract the user id from the a.user.active href with two
ok_or errors.  The entry bumps the login counter of the trace. -/
def init_client {Client : Type} (env : Env Client)
    (_redmine_config : RedmineConfig) : Trace → Res (Client × String) × Trace :=
  fun t0 =>
    let t := { t0 with loginCount := t0.loginCount + 1 }
    match env.newClient with
    | .err e => (.err e, t)
    | .crashed m => (.crashed m, t)
    | .ok client =>
      match env.rootHtml with
      | .err e => (.err e, t)
      | .crashed m => (.crashed m, t)
      | .ok html =>
        let doc := env.parseLoginDoc html
        match doc.authTokenValue with
        | none => (.crashed ("called unwrap on a None value"), t)
        | some tokenAttr =>
          match tokenAttr with
          | none => (.crashed ("called unwrap on a None value"), t)
          | some auth_token =>
            match env.postLogin auth_token with
            | .err e => (.err e, t)
            | .crashed m => (.crashed m, t)
            | .ok html2 =>
              let doc2 := env.parseLoginDoc html2
              match doc2.userActiveHref with
              | none => (.err ("Failed getting the user id#1"), t)
              | some hrefAttr =>
                match hrefAttr with
                | none => (.err ("Failed getting the user id#2"), t)
                | some hrefv =>
                  (.ok (client, rustReplace hrefv ("/users/") ("")), t)

/-- fetch_activity_html (redmine.rs lines 226-242): login, GET the activity
feed scoped to the user id, write the page to the cache (recorded in the
trace), return the client and the page. -/
def fetch_activity_html {Client : Type} (env : Env Client)
    (config_name : String) (redmine_config : RedmineConfig) :
    Trace → Res (Client × String) × Trace :=
  fun t0 =>
    match init_client env redmine_config t0 with
    | (.err e, t) => (.err e, t)
    | (.crashed m, t) => (.crashed m, t)
    | (.ok (client, user_id), t) =>
      match env.httpGet client
          (redmine_config.server_url ++ ("/activity?user_id=") ++ user_id) with
      | .err e => (.err e, t)
      | .crashed m => (.crashed m, t)
      | .ok html =>
        let t2 := { t with cacheWrites := t.cacheWrites ++ [(config_name, html)] }
        match env.writeCacheRes config_name html with
        | .err e => (.err e, t2)
        | .crashed m => (.crashed m, t2)
        | .ok _ => (.ok (client, html), t2)

/-- get_events_with_paging (redmine.rs lines 296-324).  The source
recursion has no intrinsic bound; the model adds a fuel argument whose
exhaustion is the crashed fuel artifact, never reached in any theorem
below. -/
def get_events_with_paging {Client : Type} (env : Env Client) :
    Nat → NaiveDate → String → RedmineConfig →
    List (String × LocaleInfo) → Option Client → Trace →
    Res (List Event) × Trace
  | 0, _, _, _, _, _ => fun t => (.crashed ("recursion fuel exhausted"), t)
  | Nat.succ fuel, day, activity_html, redmine_config, locs, client_opt =>
    fun t0 =>
      match parse_html env.parseDocument redmine_config locs env.today day
          activity_html with
      | .ok (.Done events) => (.ok events, t0)
      | .err e => (.err e, t0)
      | .crashed m => (.crashed m, t0)
      | .ok (.ReachedEndOfPage none) => (.ok [], t0)
      | .ok (.ReachedEndOfPage (some new_url)) =>
        let acquired : Res Client × Trace :=
          match client_opt with
          | some c => (.ok c, t0)
          | none =>
            match init_client env redmine_config t0 with
            | (.ok p, t) => (.ok p.1, t)
            | (.err e, t) => (.err e, t)
            | (.crashed m, t) => (.crashed m, t)
        match acquired with
        | (.err e, t) => (.err e, t)
        | (.crashed m, t) => (.crashed m, t)
        | (.ok client, t) =>
          match env.httpGet client new_url with
          | .err e => (.err e, t)
          | .crashed m => (.crashed m, t)
          | .ok html =>
            get_events_with_paging env fuel day html redmine_config locs
              (some client) t

/-- get_events (redmine.rs lines 399-417): compute the boundary as the
start of the day after the target day, query the cache at that boundary
(recorded in the trace); on a hit use the cached page with no client, on a
miss fetch the first page live; then run the pagination walk. -/
def get_events {Client : Type} (env : Env Client) (fuel : Nat)
    (redmine_config : RedmineConfig) (config_name : String)
    (day : NaiveDate) : Trace → Res (List Event) × Trace :=
  fun t0 =>
    let locs := redmine_locales
    let day_start : DateTimeL := ⟨day, 0, 0, 0⟩
    let next_day_start := addOneDay day_start
    let t1 := { t0 with cacheQueries := t0.cacheQueries ++ [next_day_start] }
    match env.getCached config_name next_day_start with
    | .err e => (.err e, t1)
    | .crashed m => (.crashed m, t1)
    | .ok (some cachedHtml) =>
      get_events_with_paging env fuel day cachedHtml redmine_config locs none t1
    | .ok none =>
      match fetch_activity_html env config_name redmine_config t1 with
      | (.err e, t) => (.err e, t)
      | (.crashed m, t) => (.crashed m, t)
      | (.ok (client, activity_html), t) =>
        get_events_with_paging env fuel day activity_html redmine_config locs
          (some client) t

/- ---------------------------------------------------------------------
   Helper lemmas on the date order.
   --------------------------------------------------------------------- -/

theorem NaiveDate.lt_iff {a b : NaiveDate} :
    NaiveDate.lt a b = true ↔
      (a.year < b.year ∨ (a.year = b.year ∧
        (a.month < b.month ∨ (a.month = b.month ∧ a.day < b.day)))) := by
  cases a
  cases b
  simp [NaiveDate.lt]

theorem NaiveDate.lt_asymm {a b : NaiveDate} (h : NaiveDate.lt b a = true) :
    NaiveDate.lt a b = false := by
  rw [Bool.eq_false_iff]
  intro hab
  rw [NaiveDate.lt_iff] at h hab
  rcases h with h | ⟨e1, h | ⟨e2, h⟩⟩ <;>
    rcases hab with g | ⟨f1, g | ⟨f2, g⟩⟩ <;> omega

theorem NaiveDate.beq_eq_false_of_gt {a b : NaiveDate}
    (h : NaiveDate.lt b a = true) : (a == b) = false := by
  rw [beq_eq_false_iff_ne]
  intro heq
  subst heq
  rw [NaiveDate.lt_iff] at h
  rcases h with h | ⟨e1, h | ⟨e2, h⟩⟩ <;> omega

theorem NaiveDate.lt_irrefl (a : NaiveDate) : NaiveDate.lt a a = false := by
  rw [Bool.eq_false_iff]
  intro h
  rw [NaiveDate.lt_iff] at h
  rcases h with h | ⟨e1, h | ⟨e2, h⟩⟩ <;> omega

/- ---------------------------------------------------------------------
   C7 and C8: parse_date.
   --------------------------------------------------------------------- -/

/-- C7: for every locale of the table, parse_date on a text of the fixed
YYYY-MM-DD shape that is not the today word uses the ISO format, taking
precedence over the locale pattern; in particular parse_date of 2020-03-23
is the date 2020-03-23 for all 49 locales, whatever their date_format. -/
theorem c7_iso_takes_precedence :
    (∀ (li : LocaleInfo) (today : NaiveDate) (s : String),
        isoRegexMatch s = true →
        (rustToLowercase s == li.today_translation) = false →
        parse_date li today s =
          (match NaiveDate.parse_from_str s ("%Y-%m-%d") with
           | some n => Res.ok n
           | none => Res.err ("date parse error"))) ∧
    (∀ (today : NaiveDate), ∀ p ∈ redmine_locales,
        parse_date p.2 today ("2020-03-23") = Res.ok ⟨2020, 3, 23⟩) := by
  constructor
  · intro li today s hiso hne
    simp [parse_date, hiso, hne]
  · intro today p hp
    have hall : ∀ q ∈ redmine_locales,
        (rustToLowercase ("2020-03-23") == q.2.today_translation) = false := by
      decide
    have hne := hall p hp
    have hiso : isoRegexMatch ("2020-03-23") = true := by decide
    simp [parse_date, hne, hiso]
    decide

/-- C7 witness: the en locale is in the table and parses 2020-03-23 to the
date 2020-03-23 although its pattern is month first. -/
theorem c7_iso_takes_precedence_witness :
    ("en", LocaleInfo.new ("%m/%d/%Y") ("today")) ∈ redmine_locales ∧
    parse_date (LocaleInfo.new ("%m/%d/%Y") ("today")) ⟨2026, 10, 12⟩
      ("2020-03-23") = Res.ok ⟨2020, 3, 23⟩ := by
  refine ⟨by decide, ?_⟩
  exact c7_iso_takes_precedence.2 ⟨2026, 10, 12⟩
    ("en", LocaleInfo.new ("%m/%d/%Y") ("today")) (by decide)

/-- C8: every today word of the table is already lowercase, so a string
equals it case-insensitively exactly when its lowercasing is the word; for
every such string, parse_date returns the current local date, and the
today check runs before any pattern parsing (it is the outermost branch of
parse_date). -/
theorem c8_today_word_any_case :
    (∀ p ∈ redmine_locales,
        rustToLowercase p.2.today_translation = p.2.today_translation) ∧
    (∀ p ∈ redmine_locales, ∀ (today : NaiveDate) (s : String),
        rustToLowercase s = p.2.today_translation →
        parse_date p.2 today s = Res.ok today) := by
  constructor
  · decide
  · intro p _ today s h
    simp [parse_date, h]

/-- C8 witness: the uppercase variant TODAY of the en today word parses to
the current local date. -/
theorem c8_today_word_any_case_witness :
    ("en", LocaleInfo.new ("%m/%d/%Y") ("today")) ∈ redmine_locales ∧
    rustToLowercase ("TODAY") = "today" ∧
    parse_date (LocaleInfo.new ("%m/%d/%Y") ("today")) ⟨2026, 10, 12⟩ ("TODAY") =
      Res.ok ⟨2026, 10, 12⟩ ∧
    ("mn", LocaleInfo.new ("%Y/%m/%d") ("өнөөдөр")) ∈ redmine_locales ∧
    rustToLowercase ("ӨНӨӨДӨР") = "өнөөдөр" ∧
    parse_date (LocaleInfo.new ("%Y/%m/%d") ("өнөөдөр")) ⟨2026, 10, 12⟩
      ("ӨНӨӨДӨР") = Res.ok ⟨2026, 10, 12⟩ ∧
    ("el", LocaleInfo.new ("%m/%d/%Y") ("σήμερα")) ∈ redmine_locales ∧
    rustToLowercase ("ΣΉΜΕΡΑ") = "σήμερα" ∧
    parse_date (LocaleInfo.new ("%m/%d/%Y") ("σήμερα")) ⟨2026, 10, 12⟩
      ("ΣΉΜΕΡΑ") = Res.ok ⟨2026, 10, 12⟩ := by
  refine ⟨by decide, by decide, ?_, by decide, by decide, ?_, by decide,
    by decide, ?_⟩
  · exact c8_today_word_any_case.2 ("en", LocaleInfo.new ("%m/%d/%Y") ("today"))
      (by decide) ⟨2026, 10, 12⟩ ("TODAY") (by decide)
  · exact c8_today_word_any_case.2
      ("mn", LocaleInfo.new ("%Y/%m/%d") ("өнөөдөр"))
      (by decide) ⟨2026, 10, 12⟩ ("ӨНӨӨДӨР") (by decide)
  · exact c8_today_word_any_case.2
      ("el", LocaleInfo.new ("%m/%d/%Y") ("σήμερα"))
      (by decide) ⟨2026, 10, 12⟩ ("ΣΉΜΕΡΑ") (by decide)

/- ---------------------------------------------------------------------
   C1 and C2: parse_html.
   --------------------------------------------------------------------- -/

/-- Headers that parse to dates after the target day are skipped by the
lockstep scan. -/
theorem scan_days_skip (cfg : RedmineConfig) (locale : LocaleInfo)
    (today day : NaiveDate) (pre : List String) (preC : List DayBlock)
    (hs : List String) (cs : List DayBlock)
    (hlen : pre.length = preC.length)
    (hpre : ∀ h ∈ pre, ∃ dd, parse_date locale today h = Res.ok dd ∧
        NaiveDate.lt day dd = true) :
    scan_days cfg locale today day (pre ++ hs) (preC ++ cs) =
      scan_days cfg locale today day hs cs := by
  induction pre generalizing preC with
  | nil =>
    cases preC with
    | nil => rfl
    | cons b bs => simp at hlen
  | cons h pr ih =>
    cases preC with
    | nil => simp at hlen
    | cons b bs =>
      obtain ⟨dd, hok, hlt⟩ := hpre h (List.mem_cons_self _ _)
      have h1 := NaiveDate.lt_asymm hlt
      have h2 := NaiveDate.beq_eq_false_of_gt hlt
      simp only [List.cons_append, scan_days, hok, h1, h2, Bool.false_eq_true,
        if_false]
      exact ih bs (by simpa using hlen)
        (fun x hx => hpre x (List.mem_cons_of_mem _ hx))

/-- C1: the day-header scan stops at the first header whose date is not
after the target day: all earlier headers parsing to later dates are
skipped, a strictly earlier date yields Done of the empty list, an equal
date yields Done of exactly that day's extracted events. -/
theorem c1_first_header_decides (pd : String → ActivityDoc)
    (cfg : RedmineConfig) (locs : List (String × LocaleInfo))
    (today day : NaiveDate) (activity_html tag : String) (locale : LocaleInfo)
    (pre : List String) (preC : List DayBlock) (hd0 : String) (blk : DayBlock)
    (hs : List String) (cs : List DayBlock) (d0 : NaiveDate)
    (hlang : (pd activity_html).lang = some tag)
    (hloc : List.lookup tag locs = some locale)
    (hH : (pd activity_html).dayHeaders = pre ++ hd0 :: hs)
    (hC : (pd activity_html).dayContents = preC ++ blk :: cs)
    (hlen : pre.length = preC.length)
    (hpre : ∀ h ∈ pre, ∃ dd, parse_date locale today h = Res.ok dd ∧
        NaiveDate.lt day dd = true)
    (hparse : parse_date locale today hd0 = Res.ok d0) :
    (NaiveDate.lt d0 day = true →
      parse_html pd cfg locs today day activity_html =
        Res.ok (ActivityData.Done [])) ∧
    (d0 = day → ∀ evs, parse_events cfg blk = Res.ok evs →
      parse_html pd cfg locs today day activity_html =
        Res.ok (ActivityData.Done evs)) := by
  have hskip := scan_days_skip cfg locale today day pre preC (hd0 :: hs)
    (blk :: cs) hlen hpre
  constructor
  · intro hlt
    simp [parse_html, hlang, hloc, hH, hC, hskip, scan_days, hparse, hlt]
  · intro heq evs hevs
    subst heq
    simp [parse_html, hlang, hloc, hH, hC, hskip, scan_days, hparse,
      NaiveDate.lt_irrefl, hevs]

/-- C1 witness: a page whose first header is one day after the target and
whose second header equals the target, with one event on the target day. -/
theorem c1_first_header_decides_witness :
    (parse_date (LocaleInfo.new ("%m/%d/%Y") ("today")) ⟨2026, 10, 12⟩
        ("03/23/2020") = Res.ok ⟨2020, 3, 23⟩) ∧
    (parse_events ⟨"http://s", "u", "p"⟩
        ⟨["09:00"], ["fixed"], [⟨"Bug #1", some "/issues/1"⟩]⟩ =
      Res.ok [mkRedmineEvent ⟨"http://s", "u", "p"⟩ ⟨9, 0⟩
        ⟨"Bug #1", some "/issues/1"⟩ "fixed"]) ∧
    parse_html
      (fun _ => ⟨some "en", ["03/24/2020", "03/23/2020"],
        [⟨[], [], []⟩, ⟨["09:00"], ["fixed"], [⟨"Bug #1", some "/issues/1"⟩]⟩],
        none⟩)
      ⟨"http://s", "u", "p"⟩ redmine_locales ⟨2026, 10, 12⟩ ⟨2020, 3, 23⟩
      ("page") =
      Res.ok (ActivityData.Done [mkRedmineEvent ⟨"http://s", "u", "p"⟩ ⟨9, 0⟩
        ⟨"Bug #1", some "/issues/1"⟩ "fixed"]) := by
  refine ⟨by decide, by decide, ?_⟩
  exact (c1_first_header_decides
    (fun _ => ⟨some "en", ["03/24/2020", "03/23/2020"],
      [⟨[], [], []⟩, ⟨["09:00"], ["fixed"], [⟨"Bug #1", some "/issues/1"⟩]⟩],
      none⟩)
    ⟨"http://s", "u", "p"⟩ redmine_locales ⟨2026, 10, 12⟩ ⟨2020, 3, 23⟩
    ("page") ("en") (LocaleInfo.new ("%m/%d/%Y") ("today"))
    ["03/24/2020"] [⟨[], [], []⟩] ("03/23/2020")
    ⟨["09:00"], ["fixed"], [⟨"Bug #1", some "/issues/1"⟩]⟩ [] []
    ⟨2020, 3, 23⟩ rfl (by decide) rfl rfl rfl
    (by
      intro h hh
      refine ⟨⟨2020, 3, 24⟩, ?_, by decide⟩
      have : h = "03/24/2020" := by simpa using hh
      subst this
      decide)
    (by decide)).2 rfl _ (by decide)

/-- C2: when the lockstep scan of a page ends without a decision, the
parser returns ReachedEndOfPage carrying server_url concatenated with the
previous link's href if that link is present, and none if it is absent. -/
theorem c2_needs_previous_page (pd : String → ActivityDoc)
    (cfg : RedmineConfig) (locs : List (String × LocaleInfo))
    (today day : NaiveDate) (activity_html tag : String) (locale : LocaleInfo)
    (hlang : (pd activity_html).lang = some tag)
    (hloc : List.lookup tag locs = some locale)
    (hscan : scan_days cfg locale today day (pd activity_html).dayHeaders
        (pd activity_html).dayContents = Res.ok none) :
    (∀ href, (pd activity_html).previousHref = some href →
      parse_html pd cfg locs today day activity_html =
        Res.ok (ActivityData.ReachedEndOfPage
          (some (cfg.server_url ++ href)))) ∧
    ((pd activity_html).previousHref = none →
      parse_html pd cfg locs today day activity_html =
        Res.ok (ActivityData.ReachedEndOfPage none)) := by
  constructor
  · intro href hprev
    simp [parse_html, hlang, hloc, hscan, hprev]
  · intro hprev
    simp [parse_html, hlang, hloc, hscan, hprev]

/-- C2 witness: a page with two headers after the target day and a
previous link, and the same page without the link. -/
theorem c2_needs_previous_page_witness :
    (scan_days ⟨"http://s", "u", "p"⟩ (LocaleInfo.new ("%m/%d/%Y") ("today"))
        ⟨2026, 10, 12⟩ ⟨2020, 3, 23⟩ ["03/25/2020", "03/24/2020"]
        [⟨[], [], []⟩, ⟨[], [], []⟩] = Res.ok none) ∧
    parse_html
      (fun _ => ⟨some "en", ["03/25/2020", "03/24/2020"],
        [⟨[], [], []⟩, ⟨[], [], []⟩], some "/activity?from=2020-03-22"⟩)
      ⟨"http://s", "u", "p"⟩ redmine_locales ⟨2026, 10, 12⟩ ⟨2020, 3, 23⟩
      ("page") =
      Res.ok (ActivityData.ReachedEndOfPage
        (some ("http://s" ++ "/activity?from=2020-03-22"))) := by
  refine ⟨by decide, ?_⟩
  exact (c2_needs_previous_page
    (fun _ => ⟨some "en", ["03/25/2020", "03/24/2020"],
      [⟨[], [], []⟩, ⟨[], [], []⟩], some "/activity?from=2020-03-22"⟩)
    ⟨"http://s", "u", "p"⟩ redmine_locales ⟨2026, 10, 12⟩ ⟨2020, 3, 23⟩
    ("page") ("en") (LocaleInfo.new ("%m/%d/%Y") ("today")) rfl (by decide)
    (by decide)).1 ("/activity?from=2020-03-22") rfl

/- ---------------------------------------------------------------------
   C6 and C10: parse_events.
   --------------------------------------------------------------------- -/

/-- A successful extraction produces exactly one event per time element. -/
theorem parse_events_from_length (cfg : RedmineConfig) :
    ∀ (times descs : List String) (links : List LinkElt) (evs : List Event),
      parse_events_from cfg times descs links = Res.ok evs →
      evs.length = times.length := by
  intro times
  induction times with
  | nil =>
    intro descs links evs h
    simp [parse_events_from] at h
    subst h
    rfl
  | cons t ts ih =>
    intro descs links evs h
    rw [parse_events_from] at h
    rcases ht : parse_time t with τ | e | m <;> simp only [ht] at h
    · cases descs with
      | nil => simp at h
      | cons d ds =>
        cases links with
        | nil => simp at h
        | cons l ls =>
          dsimp only at h
          rcases hr : parse_events_from cfg ts ds ls with rest | e | m <;>
            rw [hr] at h
          · simp only [Res.ok.injEq] at h
            subst h
            simp [ih ds ls rest hr]
          · simp at h
          · simp at h
    · simp at h
    · simp at h

/-- C6: extraction iterates until the time stream is exhausted (empty
times give the empty ok list and a success has exactly one event per time
element, never a partial list), a missing description or link fails with
the corresponding scrape error, and a time parse failure propagates. -/
theorem c6_lockstep_extraction (cfg : RedmineConfig) :
    (∀ descs links, parse_events cfg ⟨[], descs, links⟩ = Res.ok []) ∧
    (∀ t ts links τ, parse_time t = Res.ok τ →
        parse_events cfg ⟨t :: ts, [], links⟩ =
          Res.err ("Redmine event: no description?")) ∧
    (∀ t ts d ds τ, parse_time t = Res.ok τ →
        parse_events cfg ⟨t :: ts, d :: ds, []⟩ =
          Res.err ("Redmine event: no link?")) ∧
    (∀ t ts descs links e, parse_time t = Res.err e →
        parse_events cfg ⟨t :: ts, descs, links⟩ = Res.err e) ∧
    (∀ blk evs, parse_events cfg blk = Res.ok evs →
        evs.length = blk.times.length) := by
  refine ⟨?_, ?_, ?_, ?_, ?_⟩
  · intro descs links
    rfl
  · intro t ts links τ h
    simp [parse_events, parse_events_from, h]
  · intro t ts d ds τ h
    simp [parse_events, parse_events_from, h]
  · intro t ts descs links e h
    simp [parse_events, parse_events_from, h]
  · intro blk evs h
    exact parse_events_from_length cfg blk.times blk.descriptions blk.links evs h

/-- C6 witness: a block with one time and no description fails with the
no-description scrape error. -/
theorem c6_lockstep_extraction_witness :
    (parse_time ("09:00") = Res.ok ⟨9, 0⟩) ∧
    parse_events ⟨"http://s", "u", "p"⟩ ⟨["09:00"], [], []⟩ =
      Res.err ("Redmine event: no description?") := by
  refine ⟨by decide, ?_⟩
  exact (c6_lockstep_extraction ⟨"http://s", "u", "p"⟩).2.1 ("09:00") [] []
    ⟨9, 0⟩ (by decide)

/-- C10: a link element without an href attribute does not fail the
extraction: the event is still produced, and the deep link inside its
body markup is server_url concatenated with the empty string, that is just
server_url. -/
theorem c10_missing_href_defaults_empty (cfg : RedmineConfig)
    (t d inner : String) (τ : NaiveTime) (h : parse_time t = Res.ok τ) :
    parse_events cfg ⟨[t], [d], [⟨inner, none⟩]⟩ =
      Res.ok [Event.new ("Redmine") FONTAWESOME_TASKS_SVG τ inner inner
        (EventBody.Markup
          (("<a href=\"") ++ cfg.server_url ++ ("\">Open in the browser</a>\n")
            ++ markup_escape_text d)
          WordWrapMode.WordWrap) none] := by
  have hstep : parse_events cfg ⟨[t], [d], [⟨inner, none⟩]⟩ =
      Res.ok [mkRedmineEvent cfg τ ⟨inner, none⟩ d] := by
    simp [parse_events, parse_events_from, h]
  rw [hstep]
  rw [mkRedmineEvent]
  simp [String.append_empty]

/-- C10 witness: a concrete link without href still yields the event, with
the browser link pointing at the bare server url. -/
theorem c10_missing_href_defaults_empty_witness :
    (parse_time ("09:00") = Res.ok ⟨9, 0⟩) ∧
    parse_events ⟨"http://s", "u", "p"⟩
        ⟨["09:00"], ["did things"], [⟨"Bug #2", none⟩]⟩ =
      Res.ok [Event.new ("Redmine") FONTAWESOME_TASKS_SVG ⟨9, 0⟩ ("Bug #2")
        ("Bug #2")
        (EventBody.Markup
          (("<a href=\"") ++ "http://s" ++ ("\">Open in the browser</a>\n")
            ++ markup_escape_text ("did things"))
          WordWrapMode.WordWrap) none] := by
  refine ⟨by decide, ?_⟩
  exact c10_missing_href_defaults_empty ⟨"http://s", "u", "p"⟩ ("09:00")
    ("did things") ("Bug #2") ⟨9, 0⟩ (by decide)

/- ---------------------------------------------------------------------
   C5: init_client on a login page without the anti-forgery token.
   --------------------------------------------------------------------- -/

/-- A concrete environment whose login page parses to a document with the
given token field (no user link, nothing cached). -/
def c5Env (d : Option (Option String)) : Env Unit where
  today := ⟨2020, 1, 1⟩
  newClient := Res.ok ()
  rootHtml := Res.ok ("<html><body>login form without token</body></html>")
  parseLoginDoc := fun _ => ⟨d, none⟩
  postLogin := fun _ => Res.ok ("")
  httpGet := fun _ _ => Res.ok ("")
  getCached := fun _ _ => Res.ok none
  writeCacheRes := fun _ _ => Res.ok ()
  parseDocument := fun _ => ⟨none, [], [], none⟩

def c5Cfg : RedmineConfig := ⟨"https://redmine.example", "user", "pass"⟩

def c5T0 : Trace := ⟨0, [], []⟩

/-- C5: on a login page whose parsed document has no
input with name authenticity_token, and likewise on one whose token input
has no value attribute, init_client panics through unwrap (modelled as the
crashed outcome), instead of returning an error as the specification
requires. -/
theorem c5_missing_token_panics :
    (init_client (c5Env none) c5Cfg c5T0).1 =
      Res.crashed ("called unwrap on a None value") ∧
    (init_client (c5Env (some none)) c5Cfg c5T0).1 =
      Res.crashed ("called unwrap on a None value") := by
  constructor <;> rfl

/- ---------------------------------------------------------------------
   C3: the paginator.
   --------------------------------------------------------------------- -/

/-- C3: one pagination step.  A page parsing to ReachedEndOfPage none
yields ok of the empty list; ReachedEndOfPage of a url with a current
session fetches that url with it and recurses (no login); with no session
it logs in through init_client first; a parse error propagates, as do the
errors of the acquisition and fetch steps (visible in the match shapes of
the right hand sides). -/
theorem c3_paginator_step {Client : Type} (env : Env Client)
    (cfg : RedmineConfig) (locs : List (String × LocaleInfo))
    (day : NaiveDate) (html : String) (fuel : Nat)
    (client_opt : Option Client) (t0 : Trace) :
    (parse_html env.parseDocument cfg locs env.today day html =
        Res.ok (ActivityData.ReachedEndOfPage none) →
      get_events_with_paging env (fuel + 1) day html cfg locs client_opt t0 =
        (Res.ok [], t0)) ∧
    (∀ url c, parse_html env.parseDocument cfg locs env.today day html =
        Res.ok (ActivityData.ReachedEndOfPage (some url)) →
      client_opt = some c →
      get_events_with_paging env (fuel + 1) day html cfg locs client_opt t0 =
        (match env.httpGet c url with
         | Res.ok html2 =>
           get_events_with_paging env fuel day html2 cfg locs (some c) t0
         | Res.err e => (Res.err e, t0)
         | Res.crashed m => (Res.crashed m, t0))) ∧
    (∀ url, parse_html env.parseDocument cfg locs env.today day html =
        Res.ok (ActivityData.ReachedEndOfPage (some url)) →
      client_opt = none →
      get_events_with_paging env (fuel + 1) day html cfg locs client_opt t0 =
        (match init_client env cfg t0 with
         | (Res.ok p, t) =>
           (match env.httpGet p.1 url with
            | Res.ok html2 =>
              get_events_with_paging env fuel day html2 cfg locs (some p.1) t
            | Res.err e => (Res.err e, t)
            | Res.crashed m => (Res.crashed m, t))
         | (Res.err e, t) => (Res.err e, t)
         | (Res.crashed m, t) => (Res.crashed m, t))) ∧
    (∀ e, parse_html env.parseDocument cfg locs env.today day html =
        Res.err e →
      get_events_with_paging env (fuel + 1) day html cfg locs client_opt t0 =
        (Res.err e, t0)) := by
  refine ⟨?_, ?_, ?_, ?_⟩
  · intro hp
    simp [get_events_with_paging, hp]
  · intro url c hp hc
    subst hc
    simp only [get_events_with_paging, hp]
    rcases hg : env.httpGet c url with h2 | e | m <;> simp [hg]
  · intro url hp hc
    subst hc
    simp only [get_events_with_paging, hp]
    rcases hic : init_client env cfg t0 with ⟨r, t⟩
    rcases r with p | e | m
    · simp only [hic]
      rcases hg : env.httpGet p.1 url with h2 | e | m <;> simp [hg]
    · simp [hic]
    · simp [hic]
  · intro e hp
    simp [get_events_with_paging, hp]

/-- C3 witness: a page with no previous link and all headers after the
target day makes a one-step pagination return the empty list. -/
theorem c3_paginator_step_witness :
    (parse_html (c5Env none).parseDocument c5Cfg redmine_locales
        (c5Env none).today ⟨2020, 3, 23⟩ ("page") =
      Res.err ("Can\x27t find the language in the HTML")) ∧
    get_events_with_paging (c5Env none) 1 ⟨2020, 3, 23⟩ ("page") c5Cfg
        redmine_locales none c5T0 =
      (Res.err ("Can\x27t find the language in the HTML"), c5T0) := by
  refine ⟨by decide, ?_⟩
  exact (c3_paginator_step (c5Env none) c5Cfg redmine_locales ⟨2020, 3, 23⟩
    ("page") 0 none c5T0).2.2.2 ("Can\x27t find the language in the HTML")
    (by decide)

/- ---------------------------------------------------------------------
   C4: the cache boundary and the hit/miss behaviour of get_events.
   --------------------------------------------------------------------- -/

/-- init_client only bumps the login counter of the trace, whatever its
outcome. -/
theorem init_client_trace {Client : Type} (env : Env Client)
    (cfg : RedmineConfig) (t0 : Trace) :
    (init_client env cfg t0).2 = { t0 with loginCount := t0.loginCount + 1 } := by
  unfold init_client
  dsimp only
  repeat' split
  all_goals rfl

/-- The pagination walk never touches the cache: its trace keeps the query
and write lists unchanged. -/
theorem paging_trace_frame {Client : Type} (env : Env Client) (fuel : Nat) :
    ∀ (day : NaiveDate) (html : String) (cfg : RedmineConfig)
      (locs : List (String × LocaleInfo)) (copt : Option Client) (t : Trace),
      ((get_events_with_paging env fuel day html cfg locs copt t).2).cacheQueries
          = t.cacheQueries ∧
      ((get_events_with_paging env fuel day html cfg locs copt t).2).cacheWrites
          = t.cacheWrites := by
  induction fuel with
  | zero =>
    intro day html cfg locs copt t
    exact ⟨rfl, rfl⟩
  | succ n ih =>
    intro day html cfg locs copt t
    simp only [get_events_with_paging]
    rcases hp : parse_html env.parseDocument cfg locs env.today day html
      with ad | e | m
    · rcases ad with evs | urlOpt
      · simp [hp]
      · rcases urlOpt with _ | url
        · simp [hp]
        · simp only [hp]
          rcases copt with _ | c
          · rcases hic : init_client env cfg t with ⟨r, t2⟩
            have ht2 : t2 = { t with loginCount := t.loginCount + 1 } := by
              have h := init_client_trace env cfg t
              rw [hic] at h
              exact h
            rcases r with p | e | m
            · simp only [hic]
              rcases hg : env.httpGet p.1 url with h2 | e | m
              · simpa [hg, ht2] using ih day h2 cfg locs (some p.1) t2
              · simp [hg, ht2]
              · simp [hg, ht2]
            · simp [hic, ht2]
            · simp [hic, ht2]
          · simp only []
            rcases hg : env.httpGet c url with h2 | e | m
            · simpa [hg] using ih day h2 cfg locs (some c) t
            · simp [hg]
            · simp [hg]
    · simp [hp]
    · simp [hp]

/-- fetch_activity_html never queries the cache: its trace keeps the
query list unchanged. -/
theorem fetch_activity_html_cacheQueries {Client : Type} (env : Env Client)
    (config_name : String) (cfg : RedmineConfig) (t : Trace) :
    ((fetch_activity_html env config_name cfg t).2).cacheQueries =
      t.cacheQueries := by
  unfold fetch_activity_html
  rcases hic : init_client env cfg t with ⟨ri, ti⟩
  have hti : ti = { t with loginCount := t.loginCount + 1 } := by
    have h2 := init_client_trace env cfg t
    rw [hic] at h2
    exact h2
  rcases ri with ⟨pc, pu⟩ | e | m
  · simp only [hic]
    rcases hg : env.httpGet pc (cfg.server_url ++ ("/activity?user_id=") ++ pu)
      with h2 | e | m
    · simp only [hg]
      rcases hw : env.writeCacheRes config_name h2 with u | e | m <;>
        simp [hw, hti]
    · simp [hg, hti]
    · simp [hg, hti]
  · simp [hic, hti]
  · simp [hic, hti]

/-- C4: get_events records exactly one cache query, at the boundary that
is the start of the day after the target day; a cache hit hands the cached
page to the paginator with no client and an untouched login count; a cache
miss goes through fetch_activity_html, which performs exactly one login
and appends the fetched page to the cache writes before returning it. -/
theorem c4_cache_boundary {Client : Type} (env : Env Client) (fuel : Nat)
    (cfg : RedmineConfig) (config_name : String) (day : NaiveDate)
    (t0 : Trace) :
    (∀ r t1, get_events env fuel cfg config_name day t0 = (r, t1) →
        t1.cacheQueries = t0.cacheQueries ++ [⟨nextDay day, 0, 0, 0⟩]) ∧
    (∀ page, env.getCached config_name ⟨nextDay day, 0, 0, 0⟩ =
        Res.ok (some page) →
      get_events env fuel cfg config_name day t0 =
        get_events_with_paging env fuel day page cfg redmine_locales none
          { t0 with cacheQueries :=
              t0.cacheQueries ++ [⟨nextDay day, 0, 0, 0⟩] }) ∧
    (env.getCached config_name ⟨nextDay day, 0, 0, 0⟩ = Res.ok none →
      get_events env fuel cfg config_name day t0 =
        (match fetch_activity_html env config_name cfg
            { t0 with cacheQueries :=
                t0.cacheQueries ++ [⟨nextDay day, 0, 0, 0⟩] } with
         | (Res.err e, t) => (Res.err e, t)
         | (Res.crashed m, t) => (Res.crashed m, t)
         | (Res.ok (client, html), t) =>
           get_events_with_paging env fuel day html cfg redmine_locales
             (some client) t)) ∧
    (∀ t2 client html t3,
        fetch_activity_html env config_name cfg t2 =
          (Res.ok (client, html), t3) →
      t3.cacheWrites = t2.cacheWrites ++ [(config_name, html)] ∧
      t3.loginCount = t2.loginCount + 1 ∧
      env.writeCacheRes config_name html = Res.ok ()) := by
  refine ⟨?_, ?_, ?_, ?_⟩
  · intro r t1 h
    unfold get_events at h
    dsimp only [addOneDay] at h
    rcases hc : env.getCached config_name ⟨nextDay day, 0, 0, 0⟩
      with co | e | m <;> rw [hc] at h
    · rcases co with _ | page
      · dsimp only at h
        rcases hf : fetch_activity_html env config_name cfg
            { t0 with cacheQueries :=
                t0.cacheQueries ++ [⟨nextDay day, 0, 0, 0⟩] }
          with ⟨rf, tf⟩
        have hfq := fetch_activity_html_cacheQueries env config_name cfg
          { t0 with cacheQueries :=
              t0.cacheQueries ++ [⟨nextDay day, 0, 0, 0⟩] }
        rw [hf] at hfq
        dsimp only at hfq
        rw [hf] at h
        rcases rf with ⟨client, html⟩ | e | m
        · dsimp only at h
          have hpg := (paging_trace_frame env fuel day html cfg
            redmine_locales (some client) tf).1
          rw [h] at hpg
          dsimp only at hpg
          rw [hpg, hfq]
        · dsimp only at h
          injection h with h1 h2
          rw [← h2]
          exact hfq
        · dsimp only at h
          injection h with h1 h2
          rw [← h2]
          exact hfq
      · dsimp only at h
        have hpg := (paging_trace_frame env fuel day page cfg
          redmine_locales none
          { t0 with cacheQueries :=
              t0.cacheQueries ++ [⟨nextDay day, 0, 0, 0⟩] }).1
        rw [h] at hpg
        dsimp only at hpg
        exact hpg
    · injection h with h1 h2
      rw [← h2]
    · injection h with h1 h2
      rw [← h2]
  · intro page hc
    unfold get_events
    dsimp only [addOneDay]
    rw [hc]
  · intro hc
    unfold get_events
    dsimp only [addOneDay]
    rw [hc]
  · intro t2 client html t3 hf
    unfold fetch_activity_html at hf
    rcases hic : init_client env cfg t2 with ⟨ri, ti⟩
    have hti : ti = { t2 with loginCount := t2.loginCount + 1 } := by
      have h2 := init_client_trace env cfg t2
      rw [hic] at h2
      exact h2
    rcases ri with ⟨pc, pu⟩ | e | m
    · rw [hic] at hf
      dsimp only at hf
      rcases hg : env.httpGet pc (cfg.server_url ++ ("/activity?user_id=") ++ pu)
        with h2 | e | m <;> rw [hg] at hf
      · dsimp only at hf
        rcases hw : env.writeCacheRes config_name h2 with u | e | m <;>
          rw [hw] at hf
        · injection hf with hf1 hf2
          injection hf1 with hp
          injection hp with hpc hph
          subst hph
          refine ⟨?_, ?_, ?_⟩
          · simp [← hf2, hti]
          · simp [← hf2, hti]
          · cases u
            exact hw
        · exact absurd hf (by simp)
        · exact absurd hf (by simp)
      · exact absurd hf (by simp)
      · exact absurd hf (by simp)
    · rw [hic] at hf
      exact absurd hf (by simp)
    · rw [hic] at hf
      exact absurd hf (by simp)

/-- Concrete environment for the C4 witness: the cache holds a page for
the boundary one day after 2020-03-23. -/
def c4Env : Env Unit where
  today := ⟨2020, 3, 25⟩
  newClient := Res.ok ()
  rootHtml := Res.ok ("")
  parseLoginDoc := fun _ => ⟨some (some "tok"), some (some "/users/7")⟩
  postLogin := fun _ => Res.ok ("")
  httpGet := fun _ _ => Res.ok ("")
  getCached := fun _ b =>
    if b = ⟨⟨2020, 3, 24⟩, 0, 0, 0⟩ then Res.ok (some "cached-page")
    else Res.ok none
  writeCacheRes := fun _ _ => Res.ok ()
  parseDocument := fun _ => ⟨some "en", ["03/23/2020"], [⟨[], [], []⟩], none⟩

/-- C4 witness: with a cached page at the boundary, get_events equals the
pagination walk started on the cached page with no client and no login
recorded. -/
theorem c4_cache_boundary_witness :
    (c4Env.getCached ("redmine") ⟨nextDay ⟨2020, 3, 23⟩, 0, 0, 0⟩ =
      Res.ok (some "cached-page")) ∧
    get_events c4Env 1 c5Cfg ("redmine") ⟨2020, 3, 23⟩ c5T0 =
      get_events_with_paging c4Env 1 ⟨2020, 3, 23⟩ ("cached-page") c5Cfg
        redmine_locales none
        { c5T0 with cacheQueries :=
            c5T0.cacheQueries ++ [⟨nextDay ⟨2020, 3, 23⟩, 0, 0, 0⟩] } := by
  refine ⟨by decide, ?_⟩
  exact (c4_cache_boundary c4Env 1 c5Cfg ("redmine") ⟨2020, 3, 23⟩ c5T0).2.1
    ("cached-page") (by decide)


/- ---------------------------------------------------------------------
   C9: parse_time.
   --------------------------------------------------------------------- -/

theorem digitsToNat_one (c : Char) : digitsToNat [c] = digitVal c := by
  simp [digitsToNat]

theorem digitsToNat_two (c d : Char) :
    digitsToNat [c, d] = digitVal c * 10 + digitVal d := by
  simp [digitsToNat]

/-- Inversion of a successful two-digit numeric scan: the input starts
with one or two digits carrying the value, followed by the rest. -/
theorem scanNum_two_inv {cs : List Char} {n : Nat} {r : List Char}
    (h : scanNum 2 cs = some (n, r)) :
    ∃ pre, (∀ c ∈ pre, c.isWhitespace = true) ∧
      ((∃ c1, cs = pre ++ c1 :: r ∧ c1.isDigit = true ∧ n = digitVal c1) ∨
       (∃ c1 c2, cs = pre ++ c1 :: c2 :: r ∧ c1.isDigit = true ∧
         c2.isDigit = true ∧ n = digitVal c1 * 10 + digitVal c2)) := by
  have hsplit :=
    (List.takeWhile_append_dropWhile Char.isWhitespace cs).symm
  refine ⟨cs.takeWhile Char.isWhitespace,
    fun c hc => List.mem_takeWhile_imp hc, ?_⟩
  rcases hd : cs.dropWhile Char.isWhitespace with _ | ⟨c1, cs1⟩
  · simp [scanNum, hd, scanDigits] at h
  · by_cases h1 : c1.isDigit
    · rcases cs1 with _ | ⟨c2, cs2⟩
      · simp [scanNum, hd, scanDigits, h1, digitsToNat_one] at h
        left
        refine ⟨c1, ?_, h1, h.1.symm⟩
        conv_lhs => rw [hsplit]
        rw [hd]
        simp [h.2]
      · by_cases h2 : c2.isDigit
        · simp [scanNum, hd, scanDigits, h1, h2, digitsToNat_two] at h
          right
          refine ⟨c1, c2, ?_, h1, h2, h.1.symm⟩
          conv_lhs => rw [hsplit]
          rw [hd]
          simp [h.2]
        · simp [scanNum, hd, scanDigits, h1, h2, digitsToNat_one] at h
          left
          refine ⟨c1, ?_, h1, h.1.symm⟩
          conv_lhs => rw [hsplit]
          rw [hd]
          simp [h.2]
    · simp [scanNum, hd, scanDigits, h1] at h

/-- Unfolding steps of the two concrete time formats, with the fuel
values that NaiveTime.parse_from_str supplies (format length plus one). -/
theorem fmt24_step1 (cs : List Char) (acc : DtAcc) :
    runFmt 6 ['%', 'H', ':', '%', 'M'] cs acc =
      (match scanNum 2 cs with
       | some (n, r) => runFmt 5 [':', '%', 'M'] r { acc with hour24F := some n }
       | none => none) := rfl

theorem fmt24_step2 (cs : List Char) (acc : DtAcc) :
    runFmt 5 [':', '%', 'M'] cs acc =
      (match cs with
       | [] => none
       | i :: cs2 =>
         if (':' : Char) == i then runFmt 4 ['%', 'M'] cs2 acc else none) := rfl

theorem fmt24_step3 (cs : List Char) (acc : DtAcc) :
    runFmt 4 ['%', 'M'] cs acc =
      (match scanNum 2 cs with
       | some (n, r) => runFmt 3 [] r { acc with minuteF := some n }
       | none => none) := rfl

theorem fmt24_step4 (cs : List Char) (acc : DtAcc) :
    runFmt 3 [] cs acc =
      (match cs with
       | [] => some acc
       | _ :: _ => none) := rfl

theorem fmt12_step1 (cs : List Char) (acc : DtAcc) :
    runFmt 9 ['%', 'I', ':', '%', 'M', ' ', '%', 'p'] cs acc =
      (match scanNum 2 cs with
       | some (n, r) =>
         runFmt 8 [':', '%', 'M', ' ', '%', 'p'] r { acc with hour12F := some n }
       | none => none) := rfl

theorem fmt12_step2 (cs : List Char) (acc : DtAcc) :
    runFmt 8 [':', '%', 'M', ' ', '%', 'p'] cs acc =
      (match cs with
       | [] => none
       | i :: cs2 =>
         if (':' : Char) == i then runFmt 7 ['%', 'M', ' ', '%', 'p'] cs2 acc
         else none) := rfl

theorem fmt12_step3 (cs : List Char) (acc : DtAcc) :
    runFmt 7 ['%', 'M', ' ', '%', 'p'] cs acc =
      (match scanNum 2 cs with
       | some (n, r) => runFmt 6 [' ', '%', 'p'] r { acc with minuteF := some n }
       | none => none) := rfl

theorem fmt12_step4 (cs : List Char) (acc : DtAcc) :
    runFmt 6 [' ', '%', 'p'] cs acc =
      runFmt 5 ['%', 'p'] (cs.dropWhile Char.isWhitespace) acc := rfl

theorem fmt12_step5 (cs : List Char) (acc : DtAcc) :
    runFmt 5 ['%', 'p'] cs acc =
      (match cs with
       | c1 :: c2 :: r =>
         if (c1 == 'A' || c1 == 'a') && (c2 == 'M' || c2 == 'm') then
           runFmt 4 [] r { acc with pmF := some false }
         else if (c1 == 'P' || c1 == 'p') && (c2 == 'M' || c2 == 'm') then
           runFmt 4 [] r { acc with pmF := some true }
         else none
       | _ => none) := rfl

theorem fmt12_step6 (cs : List Char) (acc : DtAcc) :
    runFmt 4 [] cs acc =
      (match cs with
       | [] => some acc
       | _ :: _ => none) := rfl

def meridChar1 (c : Char) : Bool :=
  c == 'A' || c == 'a' || c == 'P' || c == 'p'

def meridChar2 (c : Char) : Bool :=
  c == 'M' || c == 'm'

/-- Deletion of all whitespace characters from a character list, used to
state which inputs the time parser accepts: chrono lets any whitespace run
stand before a numeric field or at a format space, so the accepted inputs
are exactly those whose whitespace-stripped text has the strict shape
below. -/
def stripWs (cs : List Char) : List Char :=
  cs.filter (fun c => !c.isWhitespace)

theorem stripWs_nil : stripWs [] = [] := rfl

theorem stripWs_append (a b : List Char) :
    stripWs (a ++ b) = stripWs a ++ stripWs b := by
  simp [stripWs]

theorem stripWs_nil_of_ws {l : List Char}
    (h : ∀ c ∈ l, c.isWhitespace = true) : stripWs l = [] := by
  simp only [stripWs]
  rw [List.filter_eq_nil_iff]
  intro a ha
  simp [h a ha]

theorem stripWs_cons_of_not_ws {c : Char} {l : List Char}
    (h : c.isWhitespace = false) : stripWs (c :: l) = c :: stripWs l := by
  simp [stripWs, h]

theorem digit_not_ws {c : Char} (h : c.isDigit = true) :
    c.isWhitespace = false := by
  rw [Bool.eq_false_iff]
  intro hw
  simp only [Char.isWhitespace, Bool.or_eq_true, decide_eq_true_eq] at hw
  rcases hw with ((rfl | rfl) | rfl) | rfl <;> exact absurd h (by decide)

theorem colon_not_ws : (':' : Char).isWhitespace = false := by decide

/-- The well-formed 24-hour inputs HH:mm after whitespace deletion: a one
or two digit hour below 24, a colon, a one or two digit minute below 60,
nothing else. -/
def shape24 (cs : List Char) : Bool :=
  match cs with
  | [a, b, c] => a.isDigit && b == ':' && c.isDigit
  | [a, b, c, d] =>
    (a.isDigit && b == ':' && c.isDigit && d.isDigit &&
        digitVal c * 10 + digitVal d ≤ 59) ||
      (a.isDigit && b.isDigit && digitVal a * 10 + digitVal b ≤ 23 &&
        c == ':' && d.isDigit)
  | [a, b, c, d, e] =>
    a.isDigit && b.isDigit && digitVal a * 10 + digitVal b ≤ 23 &&
      c == ':' && d.isDigit && e.isDigit && digitVal d * 10 + digitVal e ≤ 59
  | _ => false

/-- The well-formed 12-hour inputs hh:mm AM/PM after whitespace deletion:
a one or two digit hour in 1..12, a colon, a one or two digit minute below
60, then a meridiem of AM or PM in either case, nothing else. -/
def shape12 (cs : List Char) : Bool :=
  match cs with
  | [a, b, c, d, e] =>
    a.isDigit && 1 ≤ digitVal a && b == ':' && c.isDigit &&
      meridChar1 d && meridChar2 e
  | [a, b, c, d, e, f] =>
    (a.isDigit && 1 ≤ digitVal a && b == ':' && c.isDigit && d.isDigit &&
        digitVal c * 10 + digitVal d ≤ 59 && meridChar1 e && meridChar2 f) ||
      (a.isDigit && b.isDigit && 1 ≤ digitVal a * 10 + digitVal b &&
        digitVal a * 10 + digitVal b ≤ 12 && c == ':' && d.isDigit &&
        meridChar1 e && meridChar2 f)
  | [a, b, c, d, e, f, g] =>
    a.isDigit && b.isDigit && 1 ≤ digitVal a * 10 + digitVal b &&
      digitVal a * 10 + digitVal b ≤ 12 && c == ':' && d.isDigit &&
      e.isDigit && digitVal d * 10 + digitVal e ≤ 59 &&
      meridChar1 f && meridChar2 g
  | _ => false

/-- A successful 24-hour parse only happens on inputs whose
whitespace-stripped text has the HH:mm shape. -/
theorem parse24_shape {s : String} {t : NaiveTime}
    (h : NaiveTime.parse_from_str s ("%H:%M") = some t) :
    shape24 (stripWs s.data) = true := by
  unfold NaiveTime.parse_from_str at h
  rw [show runFmt (("%H:%M").data.length + 1) (("%H:%M").data) s.data {} =
      runFmt 6 ['%', 'H', ':', '%', 'M'] s.data {} from rfl] at h
  rw [fmt24_step1] at h
  rcases h1 : scanNum 2 s.data with _ | ⟨n, r1⟩ <;> rw [h1] at h <;>
    dsimp only at h
  · simp at h
  · rw [fmt24_step2] at h
    rcases r1 with _ | ⟨i1, r2⟩
    · simp at h
    · rcases hi : (':' : Char) == i1 with _ | _
      · simp [hi] at h
      · have hieq : (':' : Char) = i1 := eq_of_beq hi
        simp only [hi, if_true] at h
        rw [fmt24_step3] at h
        rcases h2 : scanNum 2 r2 with _ | ⟨mi, r3⟩ <;> rw [h2] at h <;>
          dsimp only at h
        · simp at h
        · rw [fmt24_step4] at h
          rcases r3 with _ | ⟨x, r4⟩
          · dsimp only at h
            by_cases hgu : (n ≤ 23 && mi ≤ 59) = true
            · simp only [Bool.and_eq_true, decide_eq_true_eq] at hgu
              obtain ⟨hn, hm⟩ := hgu
              rcases scanNum_two_inv h1 with ⟨pre1, hws1, hc1⟩
              rcases scanNum_two_inv h2 with ⟨pre2, hws2, hc2⟩
              rcases hc1 with ⟨c1, hAs, hd1, hv1⟩ |
                  ⟨c1, c2, hAs, hd1, hd2, hv⟩ <;>
                rcases hc2 with ⟨d1, hBs, he1, hw1⟩ |
                  ⟨d1, d2, hBs, he1, he2, hw⟩
              · rw [hAs, ← hieq, hBs, stripWs_append,
                  stripWs_nil_of_ws hws1,
                  stripWs_cons_of_not_ws (digit_not_ws hd1),
                  stripWs_cons_of_not_ws colon_not_ws, stripWs_append,
                  stripWs_nil_of_ws hws2,
                  stripWs_cons_of_not_ws (digit_not_ws he1)]
                simp [stripWs_nil, shape24, hd1, he1]
              · rw [hAs, ← hieq, hBs, stripWs_append,
                  stripWs_nil_of_ws hws1,
                  stripWs_cons_of_not_ws (digit_not_ws hd1),
                  stripWs_cons_of_not_ws colon_not_ws, stripWs_append,
                  stripWs_nil_of_ws hws2,
                  stripWs_cons_of_not_ws (digit_not_ws he1),
                  stripWs_cons_of_not_ws (digit_not_ws he2)]
                simp [stripWs_nil, shape24, hd1, he1, he2]
                omega
              · rw [hAs, ← hieq, hBs, stripWs_append,
                  stripWs_nil_of_ws hws1,
                  stripWs_cons_of_not_ws (digit_not_ws hd1),
                  stripWs_cons_of_not_ws (digit_not_ws hd2),
                  stripWs_cons_of_not_ws colon_not_ws, stripWs_append,
                  stripWs_nil_of_ws hws2,
                  stripWs_cons_of_not_ws (digit_not_ws he1)]
                simp [stripWs_nil, shape24, hd1, hd2, he1]
                omega
              · rw [hAs, ← hieq, hBs, stripWs_append,
                  stripWs_nil_of_ws hws1,
                  stripWs_cons_of_not_ws (digit_not_ws hd1),
                  stripWs_cons_of_not_ws (digit_not_ws hd2),
                  stripWs_cons_of_not_ws colon_not_ws, stripWs_append,
                  stripWs_nil_of_ws hws2,
                  stripWs_cons_of_not_ws (digit_not_ws he1),
                  stripWs_cons_of_not_ws (digit_not_ws he2)]
                simp [stripWs_nil, shape24, hd1, hd2, he1, he2]
                omega
            · simp [hgu] at h
          · simp at h

/-- A successful 12-hour parse only happens on inputs whose
whitespace-stripped text has the hh:mm AM/PM shape. -/
theorem parse12_shape {s : String} {t : NaiveTime}
    (h : NaiveTime.parse_from_str s ("%I:%M %p") = some t) :
    shape12 (stripWs s.data) = true := by
  unfold NaiveTime.parse_from_str at h
  rw [show runFmt (("%I:%M %p").data.length + 1) (("%I:%M %p").data) s.data {} =
      runFmt 9 ['%', 'I', ':', '%', 'M', ' ', '%', 'p'] s.data {} from rfl] at h
  rw [fmt12_step1] at h
  rcases h1 : scanNum 2 s.data with _ | ⟨n, r1⟩ <;> rw [h1] at h <;>
    dsimp only at h
  · simp at h
  · rw [fmt12_step2] at h
    rcases r1 with _ | ⟨i1, r2⟩
    · simp at h
    · rcases hi : (':' : Char) == i1 with _ | _
      · simp [hi] at h
      · have hieq : (':' : Char) = i1 := eq_of_beq hi
        simp only [hi, if_true] at h
        rw [fmt12_step3] at h
        rcases h2 : scanNum 2 r2 with _ | ⟨mi, r3⟩ <;> rw [h2] at h <;>
          dsimp only at h
        · simp at h
        · rw [fmt12_step4, fmt12_step5] at h
          have hsplit3 :=
            (List.takeWhile_append_dropWhile Char.isWhitespace r3).symm
          have hws3 : ∀ c ∈ r3.takeWhile Char.isWhitespace,
              c.isWhitespace = true :=
            fun c hc => List.mem_takeWhile_imp hc
          rcases hr4 : r3.dropWhile Char.isWhitespace with _ | ⟨p1, r5⟩ <;>
            rw [hr4] at h
          · simp at h
          · rcases r5 with _ | ⟨p2, r6⟩
            · simp at h
            · dsimp only at h
              rw [hr4] at hsplit3
              rcases hA : (p1 == 'A' || p1 == 'a') && (p2 == 'M' || p2 == 'm')
                with _ | _
              · rcases hP : (p1 == 'P' || p1 == 'p') && (p2 == 'M' || p2 == 'm')
                  with _ | _
                · simp [hA, hP] at h
                · simp only [hA, hP, Bool.false_eq_true, if_false,
                    if_true] at h
                  rw [fmt12_step6] at h
                  rcases r6 with _ | ⟨x, r7⟩
                  · dsimp only at h
                    simp only [Bool.and_eq_true, Bool.or_eq_true,
                      beq_iff_eq] at hP
                    obtain ⟨hp1, hp2⟩ := hP
                    have hm1 : meridChar1 p1 = true := by
                      rcases hp1 with rfl | rfl <;> decide
                    have hm2 : meridChar2 p2 = true := by
                      rcases hp2 with rfl | rfl <;> decide
                    have hp1ws : p1.isWhitespace = false := by
                      rcases hp1 with rfl | rfl <;> decide
                    have hp2ws : p2.isWhitespace = false := by
                      rcases hp2 with rfl | rfl <;> decide
                    by_cases hgu : (1 ≤ n && n ≤ 12 && mi ≤ 59) = true
                    · simp only [Bool.and_eq_true, decide_eq_true_eq] at hgu
                      obtain ⟨⟨hn1, hn2⟩, hm⟩ := hgu
                      rcases scanNum_two_inv h1 with ⟨pre1, hws1, hc1⟩
                      rcases scanNum_two_inv h2 with ⟨pre2, hws2, hc2⟩
                      rcases hc1 with ⟨c1, hAs, hd1, hv1⟩ |
                          ⟨c1, c2, hAs, hd1, hd2, hv⟩ <;>
                        rcases hc2 with ⟨d1, hBs, he1, hw1⟩ |
                          ⟨d1, d2, hBs, he1, he2, hw⟩
                      · rw [hAs, ← hieq, hBs, hsplit3, stripWs_append,
                          stripWs_nil_of_ws hws1,
                          stripWs_cons_of_not_ws (digit_not_ws hd1),
                          stripWs_cons_of_not_ws colon_not_ws, stripWs_append,
                          stripWs_nil_of_ws hws2,
                          stripWs_cons_of_not_ws (digit_not_ws he1),
                          stripWs_append, stripWs_nil_of_ws hws3,
                          stripWs_cons_of_not_ws hp1ws,
                          stripWs_cons_of_not_ws hp2ws]
                        simp [stripWs_nil, shape12, hd1, he1, hm1, hm2]
                        omega
                      · rw [hAs, ← hieq, hBs, hsplit3, stripWs_append,
                          stripWs_nil_of_ws hws1,
                          stripWs_cons_of_not_ws (digit_not_ws hd1),
                          stripWs_cons_of_not_ws colon_not_ws, stripWs_append,
                          stripWs_nil_of_ws hws2,
                          stripWs_cons_of_not_ws (digit_not_ws he1),
                          stripWs_cons_of_not_ws (digit_not_ws he2),
                          stripWs_append, stripWs_nil_of_ws hws3,
                          stripWs_cons_of_not_ws hp1ws,
                          stripWs_cons_of_not_ws hp2ws]
                        simp [stripWs_nil, shape12, hd1, he1, he2, hm1, hm2]
                        omega
                      · rw [hAs, ← hieq, hBs, hsplit3, stripWs_append,
                          stripWs_nil_of_ws hws1,
                          stripWs_cons_of_not_ws (digit_not_ws hd1),
                          stripWs_cons_of_not_ws (digit_not_ws hd2),
                          stripWs_cons_of_not_ws colon_not_ws, stripWs_append,
                          stripWs_nil_of_ws hws2,
                          stripWs_cons_of_not_ws (digit_not_ws he1),
                          stripWs_append, stripWs_nil_of_ws hws3,
                          stripWs_cons_of_not_ws hp1ws,
                          stripWs_cons_of_not_ws hp2ws]
                        simp [stripWs_nil, shape12, hd1, hd2, he1, hm1, hm2]
                        omega
                      · rw [hAs, ← hieq, hBs, hsplit3, stripWs_append,
                          stripWs_nil_of_ws hws1,
                          stripWs_cons_of_not_ws (digit_not_ws hd1),
                          stripWs_cons_of_not_ws (digit_not_ws hd2),
                          stripWs_cons_of_not_ws colon_not_ws, stripWs_append,
                          stripWs_nil_of_ws hws2,
                          stripWs_cons_of_not_ws (digit_not_ws he1),
                          stripWs_cons_of_not_ws (digit_not_ws he2),
                          stripWs_append, stripWs_nil_of_ws hws3,
                          stripWs_cons_of_not_ws hp1ws,
                          stripWs_cons_of_not_ws hp2ws]
                        simp [stripWs_nil, shape12, hd1, hd2, he1, he2, hm1,
                          hm2]
                        omega
                    · simp [hgu] at h
                  · simp at h
              · simp only [hA, if_true] at h
                rw [fmt12_step6] at h
                rcases r6 with _ | ⟨x, r7⟩
                · dsimp only at h
                  simp only [Bool.and_eq_true, Bool.or_eq_true,
                    beq_iff_eq] at hA
                  obtain ⟨hp1, hp2⟩ := hA
                  have hm1 : meridChar1 p1 = true := by
                    rcases hp1 with rfl | rfl <;> decide
                  have hm2 : meridChar2 p2 = true := by
                    rcases hp2 with rfl | rfl <;> decide
                  have hp1ws : p1.isWhitespace = false := by
                    rcases hp1 with rfl | rfl <;> decide
                  have hp2ws : p2.isWhitespace = false := by
                    rcases hp2 with rfl | rfl <;> decide
                  by_cases hgu : (1 ≤ n && n ≤ 12 && mi ≤ 59) = true
                  · simp only [Bool.and_eq_true, decide_eq_true_eq] at hgu
                    obtain ⟨⟨hn1, hn2⟩, hm⟩ := hgu
                    rcases scanNum_two_inv h1 with ⟨pre1, hws1, hc1⟩
                    rcases scanNum_two_inv h2 with ⟨pre2, hws2, hc2⟩
                    rcases hc1 with ⟨c1, hAs, hd1, hv1⟩ |
                        ⟨c1, c2, hAs, hd1, hd2, hv⟩ <;>
                      rcases hc2 with ⟨d1, hBs, he1, hw1⟩ |
                        ⟨d1, d2, hBs, he1, he2, hw⟩
                    · rw [hAs, ← hieq, hBs, hsplit3, stripWs_append,
                        stripWs_nil_of_ws hws1,
                        stripWs_cons_of_not_ws (digit_not_ws hd1),
                        stripWs_cons_of_not_ws colon_not_ws, stripWs_append,
                        stripWs_nil_of_ws hws2,
                        stripWs_cons_of_not_ws (digit_not_ws he1),
                        stripWs_append, stripWs_nil_of_ws hws3,
                        stripWs_cons_of_not_ws hp1ws,
                        stripWs_cons_of_not_ws hp2ws]
                      simp [stripWs_nil, shape12, hd1, he1, hm1, hm2]
                      omega
                    · rw [hAs, ← hieq, hBs, hsplit3, stripWs_append,
                        stripWs_nil_of_ws hws1,
                        stripWs_cons_of_not_ws (digit_not_ws hd1),
                        stripWs_cons_of_not_ws colon_not_ws, stripWs_append,
                        stripWs_nil_of_ws hws2,
                        stripWs_cons_of_not_ws (digit_not_ws he1),
                        stripWs_cons_of_not_ws (digit_not_ws he2),
                        stripWs_append, stripWs_nil_of_ws hws3,
                        stripWs_cons_of_not_ws hp1ws,
                        stripWs_cons_of_not_ws hp2ws]
                      simp [stripWs_nil, shape12, hd1, he1, he2, hm1, hm2]
                      omega
                    · rw [hAs, ← hieq, hBs, hsplit3, stripWs_append,
                        stripWs_nil_of_ws hws1,
                        stripWs_cons_of_not_ws (digit_not_ws hd1),
                        stripWs_cons_of_not_ws (digit_not_ws hd2),
                        stripWs_cons_of_not_ws colon_not_ws, stripWs_append,
                        stripWs_nil_of_ws hws2,
                        stripWs_cons_of_not_ws (digit_not_ws he1),
                        stripWs_append, stripWs_nil_of_ws hws3,
                        stripWs_cons_of_not_ws hp1ws,
                        stripWs_cons_of_not_ws hp2ws]
                      simp [stripWs_nil, shape12, hd1, hd2, he1, hm1, hm2]
                      omega
                    · rw [hAs, ← hieq, hBs, hsplit3, stripWs_append,
                        stripWs_nil_of_ws hws1,
                        stripWs_cons_of_not_ws (digit_not_ws hd1),
                        stripWs_cons_of_not_ws (digit_not_ws hd2),
                        stripWs_cons_of_not_ws colon_not_ws, stripWs_append,
                        stripWs_nil_of_ws hws2,
                        stripWs_cons_of_not_ws (digit_not_ws he1),
                        stripWs_cons_of_not_ws (digit_not_ws he2),
                        stripWs_append, stripWs_nil_of_ws hws3,
                        stripWs_cons_of_not_ws hp1ws,
                        stripWs_cons_of_not_ws hp2ws]
                      simp [stripWs_nil, shape12, hd1, hd2, he1, he2, hm1,
                        hm2]
                      omega
                  · simp [hgu] at h
                · simp at h

/-- C9: parse_time dispatches on the presence of a space, parsing with the
12-hour meridiem format when one is present and with the 24-hour format
otherwise; both 01:30 PM and 13:30 give 13:30 (and, as chrono tolerates
whitespace runs at a format space and before numeric fields, so does
01:30 followed by two spaces and PM); and a successful parse only happens
on inputs whose whitespace-stripped text has the corresponding
hh:mm AM/PM or HH:mm shape, so any other shape fails. -/
theorem c9_parse_time_shapes :
    (parse_time ("01:30 PM") = Res.ok ⟨13, 30⟩) ∧
    (parse_time ("01:30  PM") = Res.ok ⟨13, 30⟩) ∧
    (parse_time ("13:30") = Res.ok ⟨13, 30⟩) ∧
    (∀ s, strContainsChar s ' ' = true →
      parse_time s =
        (match NaiveTime.parse_from_str s ("%I:%M %p") with
         | some t => Res.ok t
         | none => Res.err ("time parse error"))) ∧
    (∀ s, strContainsChar s ' ' = false →
      parse_time s =
        (match NaiveTime.parse_from_str s ("%H:%M") with
         | some t => Res.ok t
         | none => Res.err ("time parse error"))) ∧
    (∀ s t, parse_time s = Res.ok t →
      (strContainsChar s ' ' = true ∧ shape12 (stripWs s.data) = true) ∨
      (strContainsChar s ' ' = false ∧ shape24 (stripWs s.data) = true)) := by
  refine ⟨by decide, by decide, by decide, ?_, ?_, ?_⟩
  · intro s hc
    simp [parse_time, hc]
  · intro s hc
    simp [parse_time, hc]
  · intro s t h
    unfold parse_time at h
    by_cases hc : strContainsChar s ' ' = true
    · left
      refine ⟨hc, ?_⟩
      rw [if_pos hc] at h
      rcases hp : NaiveTime.parse_from_str s ("%I:%M %p") with _ | t2 <;>
        rw [hp] at h
      · simp at h
      · exact parse12_shape hp
    · right
      have hc2 : strContainsChar s ' ' = false := by
        simpa using hc
      refine ⟨hc2, ?_⟩
      rw [if_neg hc] at h
      rcases hp : NaiveTime.parse_from_str s ("%H:%M") with _ | t2 <;>
        rw [hp] at h
      · simp at h
      · exact parse24_shape hp

/-- C9 witness: 01:30 PM contains a space and goes through the 12-hour
format; its success certifies the 12-hour shape of the stripped text. -/
theorem c9_parse_time_shapes_witness :
    (strContainsChar ("01:30 PM") ' ' = true) ∧
    (parse_time ("01:30 PM") = Res.ok ⟨13, 30⟩) ∧
    ((strContainsChar ("01:30 PM") ' ' = true ∧
        shape12 (stripWs (("01:30 PM").data)) = true) ∨
      (strContainsChar ("01:30 PM") ' ' = false ∧
        shape24 (stripWs (("01:30 PM").data)) = true)) := by
  refine ⟨by decide, by decide, ?_⟩
  exact c9_parse_time_shapes.2.2.2.2.2 ("01:30 PM") ⟨13, 30⟩ (by decide)

end Redmine
